import Mathlib

/-!
Shallow embedding of the license verification service
(canonical variant: netlify/functions/verify.js, pg + response signing,
10-minute trials).

The database table license_codes is modelled as a list of records, time as
integer milliseconds since the Unix epoch (one clock stands for both the
JS Date.now() and the SQL NOW(), which the code mixes), and the body of a
request as the result of JSON.parse: either the parse threw, or it produced
an object whose licenseCode / machineId fields may each be absent.
The crypto signature is modelled as the pair of the signing key and the
exact payload string passed to the signer; everything else the handler does
is embedded as executable functions.
-/

namespace Verify

/-- The set of characters removed by the JavaScript String.prototype.trim:
ECMA WhiteSpace and LineTerminator code points. -/
def jsWhitespace (c : Char) : Bool :=
  c = ' ' || c = '\t' || c = '\n' || c = '\r' ||
  c = Char.ofNat 0x0b || c = Char.ofNat 0x0c ||
  c = Char.ofNat 0xa0 || c = Char.ofNat 0x1680 ||
  (0x2000 ≤ c.toNat && c.toNat ≤ 0x200a) ||
  c = Char.ofNat 0x2028 || c = Char.ofNat 0x2029 ||
  c = Char.ofNat 0x202f || c = Char.ofNat 0x205f ||
  c = Char.ofNat 0x3000 || c = Char.ofNat 0xfeff

/-- licenseCode.trim(): drop leading and trailing JS whitespace. -/
def jsTrim (s : String) : String :=
  String.mk (((s.data.dropWhile jsWhitespace).reverse.dropWhile jsWhitespace).reverse)

/-- Lowercase hexadecimal digit, as JSON.stringify emits in escapes. -/
def hexDigit (n : Nat) : Char :=
  if n < 10 then Char.ofNat (48 + n) else Char.ofNat (87 + n)

/-- Four lowercase hex digits. -/
def hex4 (n : Nat) : String :=
  String.mk [hexDigit (n / 4096 % 16), hexDigit (n / 256 % 16),
             hexDigit (n / 16 % 16), hexDigit (n % 16)]

/-- JSON.stringify escaping of a single character of a string value. -/
def jsonEscapeChar (c : Char) : String :=
  if c = '"' then "\\\""
  else if c = '\\' then "\\\\"
  else if c = Char.ofNat 8 then "\\b"
  else if c = '\t' then "\\t"
  else if c = '\n' then "\\n"
  else if c = Char.ofNat 12 then "\\f"
  else if c = '\r' then "\\r"
  else if c.toNat < 32 then "\\u" ++ hex4 c.toNat
  else String.singleton c

/-- JSON.stringify of a string value. -/
def jsonQuote (s : String) : String :=
  "\"" ++ String.join (s.data.map jsonEscapeChar) ++ "\""

/-- JSON.stringify of a boolean. -/
def jsonOfBool (b : Bool) : String :=
  if b then "true" else "false"

/-- JSON.stringify of a nullable string. -/
def jsonOfOptStr (s : Option String) : String :=
  match s with
  | none => "null"
  | some v => jsonQuote v

/-- The payload string the source builds and signs:
JSON.stringify of the object literal with keys success, message, machineId,
isTrial, expiryDate, in that textual order (JSON.stringify preserves the
insertion order of string keys). -/
def signPayload (success : Bool) (message machineId : String)
    (isTrial : Bool) (expiryDate : Option String) : String :=
  "\x7b\"success\":" ++ jsonOfBool success ++
  ",\"message\":" ++ jsonQuote message ++
  ",\"machineId\":" ++ jsonQuote machineId ++
  ",\"isTrial\":" ++ jsonOfBool isTrial ++
  ",\"expiryDate\":" ++ jsonOfOptStr expiryDate ++ "\x7d"

/-- Modelled from the spec: the deterministic serialization a verifier holding
the public key must be able to reproduce — the exact field set
success, message, machineId, isTrial, expiryDate, serialized as a JSON object
in that fixed order, with string values JSON-escaped and a missing expiry
rendered as null. Stated separately from signPayload (which is transcribed
from the source) so that agreement between the two is a theorem. -/
def payloadCanonical (success : Bool) (message machineId : String)
    (isTrial : Bool) (expiryDate : Option String) : String :=
  "\x7b\"success\":" ++ jsonOfBool success ++
  ",\"message\":" ++ jsonQuote message ++
  ",\"machineId\":" ++ jsonQuote machineId ++
  ",\"isTrial\":" ++ jsonOfBool isTrial ++
  ",\"expiryDate\":" ++ jsonOfOptStr expiryDate ++ "\x7d"

/-- The result of crypto signing, modelled as the pair of the private key and
the payload handed to the signer (the signature determines and is determined
by these two inputs; the actual RSA/SHA256 computation is an external
collaborator). -/
structure SignedToken where
  key : String
  payload : String
deriving DecidableEq

/-- signResponse from the source: null when no private key is configured,
otherwise the signature over the five-field payload. -/
def signResponse (privateKey : Option String) (success : Bool)
    (message machineId : String) (isTrial : Bool) (expiryDate : Option String) :
    Option SignedToken :=
  match privateKey with
  | none => none
  | some k => some ⟨k, signPayload success message machineId isTrial expiryDate⟩

/-- Left-pad a decimal rendering with zeros to the given width. -/
def pad (width : Nat) (n : Nat) : String :=
  let s := toString n
  if s.length < width then String.mk (List.replicate (width - s.length) '0') ++ s
  else s

/-- Civil date (year, month, day) from a count of days since 1970-01-01,
proleptic Gregorian (the standard days-from-civil inverse). -/
def civilFromDays (z : Int) : Int × Nat × Nat :=
  let z2 := z + 719468
  let era : Int := z2.fdiv 146097
  let doe : Nat := (z2 - era * 146097).toNat
  let yoe : Nat := (doe - doe / 1460 + doe / 36524 - doe / 146096) / 365
  let doy : Nat := doe - (365 * yoe + yoe / 4 - yoe / 100)
  let mp : Nat := (5 * doy + 2) / 153
  let d : Nat := doy - (153 * mp + 2) / 5 + 1
  let m : Nat := if mp < 10 then mp + 3 else mp - 9
  let y : Int := (yoe : Int) + era * 400
  (if m ≤ 2 then y + 1 else y, m, d)

/-- Date.prototype.toISOString on a millisecond timestamp:
UTC, milliseconds precision, trailing Z; years outside 0000–9999 use the
expanded six-digit form with a sign. -/
def isoString (t : Int) : String :=
  let days := t.fdiv 86400000
  let msod : Nat := (t - days * 86400000).toNat
  let ymd := civilFromDays days
  let y := ymd.1
  let m := ymd.2.1
  let d := ymd.2.2
  let yearStr :=
    if y < 0 then "-" ++ pad 6 (-y).toNat
    else if 9999 < y then "+" ++ pad 6 y.toNat
    else pad 4 y.toNat
  yearStr ++ "-" ++ pad 2 m ++ "-" ++ pad 2 d ++ "T" ++
  pad 2 (msod / 3600000) ++ ":" ++ pad 2 (msod % 3600000 / 60000) ++ ":" ++
  pad 2 (msod % 60000 / 1000) ++ "." ++ pad 3 (msod % 1000) ++ "Z"

/-- One row of the license_codes table. Timestamps are milliseconds;
machine_id and trial_expires_at are nullable. -/
structure LicenseRecord where
  id : Nat
  code : String
  is_used : Bool
  machine_id : Option String
  used_at : Option Int
  created_at : Int
  is_trial : Bool
  trial_expires_at : Option Int
deriving DecidableEq

/-- The JSON body of a response. Each optional field distinguishes
"key absent from the object" (none) from "key present with value null"
(some none). -/
structure RespBody where
  success : Bool
  message : String
  isTrial : Option Bool
  expiryDate : Option (Option String)
  signature : Option (Option SignedToken)
deriving DecidableEq

/-- An HTTP response of the handler; body is none for the empty-body
OPTIONS preflight reply. -/
structure Response where
  statusCode : Nat
  body : Option RespBody
deriving DecidableEq

/-- Result of JSON.parse on the request body: either the parse threw, or it
yielded an object whose licenseCode and machineId fields may each be absent. -/
inductive ParsedBody where
  | malformed : ParsedBody
  | ok : Option String → Option String → ParsedBody
deriving DecidableEq

/-- String.prototype.startsWith, as a prefix test on the character
sequences (structurally recursive so that concrete instances compute). -/
def jsStartsWith (s p : String) : Bool :=
  p.data.isPrefixOf s.data

/-- JavaScript falsiness of a possibly-absent string field:
undefined and the empty string are falsy. -/
def falsy (s : Option String) : Bool :=
  match s with
  | none => true
  | some v => v = ""

/-- Math.max(0, Math.round((expiry - now) / 60000)) in exact integer
arithmetic: Math.round is floor of the argument plus one half, so rounding
d / 60000 half-up is (d + 30000) floor-divided by 60000. -/
def minutesLeft (expiry now : Int) : Int :=
  max 0 ((expiry - now + 30000).fdiv 60000)

/-- The 10-minute trial duration of the latest variant, in milliseconds. -/
def trialDurationMs : Int := 600000

/-- The row update of the first-activation UPDATE statement, applied to the
row whose id matches the fetched row's id: set is_used, used_at, machine_id,
is_trial, and trial_expires_at (NOW() + 10 minutes for trial codes, NULL
otherwise). -/
def activateRow (now : Int) (machineId : String) (isTrialCode : Bool)
    (targetId : Nat) (r : LicenseRecord) : LicenseRecord :=
  if r.id = targetId then
    { r with is_used := true,
             used_at := some now,
             machine_id := some machineId,
             is_trial := isTrialCode,
             trial_expires_at := if isTrialCode then some (now + trialDurationMs) else none }
  else r

/-- The decision logic of the handler after validation, acting on the
already-trimmed lookup code: SELECT the first row whose code matches, then
the decision table, returning the response and the resulting table state. -/
def verifyLicense (db : List LicenseRecord) (privateKey : Option String)
    (now : Int) (code machineId : String) : Response × List LicenseRecord :=
  match db.find? (fun r => r.code = code) with
  | none =>
    (⟨404, some ⟨false, "Invalid license code.", none, none,
        some (signResponse privateKey false "Invalid license code." machineId false none)⟩⟩, db)
  | some codeData =>
    if codeData.is_used then
      if codeData.machine_id ≠ some machineId then
        (⟨403, some ⟨false, "This license is already used on another device.", none, none,
            some (signResponse privateKey false "This license is already used on another device."
              machineId false none)⟩⟩, db)
      else if codeData.is_trial then
        -- new Date(null) is the epoch, so a null expiry reads as 0
        if now > codeData.trial_expires_at.getD 0 then
          (⟨402, some ⟨false, "Trial period has expired. Please upgrade to a lifetime license.",
              some true, some (some (isoString (codeData.trial_expires_at.getD 0))),
              some (signResponse privateKey false
                "Trial period has expired. Please upgrade to a lifetime license." machineId true
                (some (isoString (codeData.trial_expires_at.getD 0))))⟩⟩, db)
        else
          (⟨200, some ⟨true,
              "Trial active. Expires in " ++
                toString (minutesLeft (codeData.trial_expires_at.getD 0) now) ++ " minutes.",
              some true, some (some (isoString (codeData.trial_expires_at.getD 0))),
              some (signResponse privateKey true
                ("Trial active. Expires in " ++
                  toString (minutesLeft (codeData.trial_expires_at.getD 0) now) ++ " minutes.")
                machineId true (some (isoString (codeData.trial_expires_at.getD 0))))⟩⟩, db)
      else
        (⟨200, some ⟨true, "License verified successfully.", some false, some none,
            some (signResponse privateKey true "License verified successfully."
              machineId false none)⟩⟩, db)
    else
      (⟨200, some ⟨true,
          if jsStartsWith codeData.code "TRIAL-" then "Trial activated for 10 minutes."
          else "Lifetime license activated successfully.",
          some (jsStartsWith codeData.code "TRIAL-"),
          some (if jsStartsWith codeData.code "TRIAL-"
                then some (isoString (now + trialDurationMs)) else none),
          some (signResponse privateKey true
            (if jsStartsWith codeData.code "TRIAL-" then "Trial activated for 10 minutes."
             else "Lifetime license activated successfully.")
            machineId (jsStartsWith codeData.code "TRIAL-")
            (if jsStartsWith codeData.code "TRIAL-"
             then some (isoString (now + trialDurationMs)) else none))⟩⟩,
        db.map (activateRow now machineId (jsStartsWith codeData.code "TRIAL-") codeData.id))

/-- The exported handler: OPTIONS preflight, method check, body parse
(a throwing JSON.parse lands in the catch block, which responds 500),
field presence check, then the decision logic on the trimmed code. -/
def handler (db : List LicenseRecord) (privateKey : Option String) (now : Int)
    (httpMethod : String) (body : ParsedBody) : Response × List LicenseRecord :=
  if httpMethod = "OPTIONS" then (⟨204, none⟩, db)
  else if httpMethod ≠ "POST" then
    (⟨405, some ⟨false, "Method Not Allowed", none, none, none⟩⟩, db)
  else
    match body with
    | ParsedBody.malformed =>
      (⟨500, some ⟨false, "Server error.", none, none, none⟩⟩, db)
    | ParsedBody.ok licenseCode machineId =>
      if falsy licenseCode || falsy machineId then
        (⟨400, some ⟨false, "License code and machine ID required.", none, none, none⟩⟩, db)
      else
        verifyLicense db privateKey now (jsTrim (licenseCode.getD "")) (machineId.getD "")

/-- A well-formed POST request carrying both fields. -/
def postOutcome (db : List LicenseRecord) (privateKey : Option String)
    (now : Int) (licenseCode machineId : String) : Response × List LicenseRecord :=
  handler db privateKey now "POST" (ParsedBody.ok (some licenseCode) (some machineId))

end Verify

namespace Verify

/-! ### Structural lemmas -/

theorem dropWhile_head_false {α : Type} (p : α → Bool) (l : List α) {a : α}
    {t : List α} (h : l.dropWhile p = a :: t) : p a = false := by
  have hh := List.head?_dropWhile_not p l
  rw [h] at hh
  simpa using hh

theorem dropWhile_eq_self_of_head {α : Type} (p : α → Bool) (l : List α)
    (h : ∀ a t, l = a :: t → p a = false) : l.dropWhile p = l := by
  cases l with
  | nil => rfl
  | cons a t =>
    have ha := h a t rfl
    rw [List.dropWhile_cons, if_neg (by simp [ha])]

/-- Dropping a prefix satisfying p, then a suffix satisfying p. -/
def trimEnds {α : Type} (p : α → Bool) (l : List α) : List α :=
  ((l.dropWhile p).reverse.dropWhile p).reverse

theorem trimEnds_head_false {α : Type} (p : α → Bool) (l : List α) {a : α}
    {t : List α} (h : trimEnds p l = a :: t) : p a = false := by
  unfold trimEnds at h
  cases hu : l.dropWhile p with
  | nil => rw [hu] at h; simp at h
  | cons b s =>
    have hb : p b = false := dropWhile_head_false p l hu
    rw [hu] at h
    rw [show (b :: s).reverse = s.reverse ++ [b] from by simp] at h
    rw [List.dropWhile_append] at h
    by_cases he : (s.reverse.dropWhile p).isEmpty
    · rw [if_pos he, List.dropWhile_cons, if_neg (by simp [hb])] at h
      have hba : a = b := by
        have := congrArg List.head? h
        simpa using this.symm
      rw [hba]; exact hb
    · rw [if_neg he, List.reverse_append] at h
      have hba : a = b := by
        have := congrArg List.head? h
        simpa using this.symm
      rw [hba]; exact hb

theorem trimEnds_idem {α : Type} (p : α → Bool) (l : List α) :
    trimEnds p (trimEnds p l) = trimEnds p l := by
  have h1 : (trimEnds p l).dropWhile p = trimEnds p l :=
    dropWhile_eq_self_of_head p _ (fun a t h => trimEnds_head_false p l h)
  have h2 : (trimEnds p l).reverse.dropWhile p = (trimEnds p l).reverse := by
    apply dropWhile_eq_self_of_head
    intro a t h
    have hr : (trimEnds p l).reverse = ((l.dropWhile p).reverse).dropWhile p := by
      unfold trimEnds; rw [List.reverse_reverse]
    rw [hr] at h
    exact dropWhile_head_false p _ h
  show (((trimEnds p l).dropWhile p).reverse.dropWhile p).reverse = trimEnds p l
  rw [h1, h2, List.reverse_reverse]

theorem jsTrim_eq_trimEnds (s : String) :
    jsTrim s = String.mk (trimEnds jsWhitespace s.data) := rfl

theorem jsTrim_idem (s : String) : jsTrim (jsTrim s) = jsTrim s :=
  congrArg String.mk (trimEnds_idem jsWhitespace s.data)

theorem ne_empty_of_jsTrim_ne_empty {s : String} (h : jsTrim s ≠ "") : s ≠ "" := by
  intro he
  apply h
  rw [he]
  rfl

/-- A valid POST request reduces to the decision logic on the trimmed code. -/
theorem handler_post_ok (db : List LicenseRecord) (key : Option String)
    (now : Int) (lc mid : String) (hlc : lc ≠ "") (hmid : mid ≠ "") :
    handler db key now "POST" (ParsedBody.ok (some lc) (some mid)) =
      verifyLicense db key now (jsTrim lc) mid := by
  unfold handler
  rw [if_neg (by decide), if_neg (by simp)]
  have hf : (falsy (some lc) || falsy (some mid)) = false := by
    simp [falsy, hlc, hmid]
  simp only [hf, Bool.false_eq_true, if_false, Option.getD_some]

end Verify

namespace Verify

/-! ### Branch lemmas for the decision logic -/

theorem verify_not_found (db : List LicenseRecord) (key : Option String)
    (now : Int) (code mid : String)
    (h : db.find? (fun r => r.code = code) = none) :
    verifyLicense db key now code mid =
      (⟨404, some ⟨false, "Invalid license code.", none, none,
          some (signResponse key false "Invalid license code." mid false none)⟩⟩, db) := by
  unfold verifyLicense
  rw [h]

theorem verify_used_other (db : List LicenseRecord) (key : Option String)
    (now : Int) (code mid : String) (c : LicenseRecord)
    (h : db.find? (fun r => r.code = code) = some c)
    (hu : c.is_used = true) (hm : c.machine_id ≠ some mid) :
    verifyLicense db key now code mid =
      (⟨403, some ⟨false, "This license is already used on another device.", none, none,
          some (signResponse key false "This license is already used on another device."
            mid false none)⟩⟩, db) := by
  unfold verifyLicense
  rw [h]
  simp only [hu, if_true]
  rw [if_pos hm]

theorem verify_trial_expired (db : List LicenseRecord) (key : Option String)
    (now : Int) (code mid : String) (c : LicenseRecord)
    (h : db.find? (fun r => r.code = code) = some c)
    (hu : c.is_used = true) (hm : c.machine_id = some mid)
    (ht : c.is_trial = true) (he : now > c.trial_expires_at.getD 0) :
    verifyLicense db key now code mid =
      (⟨402, some ⟨false, "Trial period has expired. Please upgrade to a lifetime license.",
          some true, some (some (isoString (c.trial_expires_at.getD 0))),
          some (signResponse key false
            "Trial period has expired. Please upgrade to a lifetime license." mid true
            (some (isoString (c.trial_expires_at.getD 0))))⟩⟩, db) := by
  unfold verifyLicense
  rw [h]
  simp only [hu, if_true]
  rw [if_neg (not_not_intro hm), if_pos ht, if_pos he]

theorem verify_trial_active (db : List LicenseRecord) (key : Option String)
    (now : Int) (code mid : String) (c : LicenseRecord)
    (h : db.find? (fun r => r.code = code) = some c)
    (hu : c.is_used = true) (hm : c.machine_id = some mid)
    (ht : c.is_trial = true) (he : ¬ now > c.trial_expires_at.getD 0) :
    verifyLicense db key now code mid =
      (⟨200, some ⟨true,
          "Trial active. Expires in " ++
            toString (minutesLeft (c.trial_expires_at.getD 0) now) ++ " minutes.",
          some true, some (some (isoString (c.trial_expires_at.getD 0))),
          some (signResponse key true
            ("Trial active. Expires in " ++
              toString (minutesLeft (c.trial_expires_at.getD 0) now) ++ " minutes.")
            mid true (some (isoString (c.trial_expires_at.getD 0))))⟩⟩, db) := by
  unfold verifyLicense
  rw [h]
  simp only [hu, if_true]
  rw [if_neg (not_not_intro hm), if_pos ht, if_neg he]

theorem verify_lifetime (db : List LicenseRecord) (key : Option String)
    (now : Int) (code mid : String) (c : LicenseRecord)
    (h : db.find? (fun r => r.code = code) = some c)
    (hu : c.is_used = true) (hm : c.machine_id = some mid)
    (ht : c.is_trial = false) :
    verifyLicense db key now code mid =
      (⟨200, some ⟨true, "License verified successfully.", some false, some none,
          some (signResponse key true "License verified successfully." mid false none)⟩⟩,
        db) := by
  unfold verifyLicense
  rw [h]
  simp only [hu, if_true]
  rw [if_neg (not_not_intro hm)]
  simp only [ht, Bool.false_eq_true, if_false]

theorem verify_activation (db : List LicenseRecord) (key : Option String)
    (now : Int) (code mid : String) (c : LicenseRecord)
    (h : db.find? (fun r => r.code = code) = some c)
    (hu : c.is_used = false) :
    verifyLicense db key now code mid =
      (⟨200, some ⟨true,
          if jsStartsWith c.code "TRIAL-" then "Trial activated for 10 minutes."
          else "Lifetime license activated successfully.",
          some (jsStartsWith c.code "TRIAL-"),
          some (if jsStartsWith c.code "TRIAL-"
                then some (isoString (now + trialDurationMs)) else none),
          some (signResponse key true
            (if jsStartsWith c.code "TRIAL-" then "Trial activated for 10 minutes."
             else "Lifetime license activated successfully.")
            mid (jsStartsWith c.code "TRIAL-")
            (if jsStartsWith c.code "TRIAL-"
             then some (isoString (now + trialDurationMs)) else none))⟩⟩,
        db.map (activateRow now mid (jsStartsWith c.code "TRIAL-") c.id)) := by
  unfold verifyLicense
  rw [h]
  simp only [hu, Bool.false_eq_true, if_false]

end Verify

namespace Verify

/-! ### Effect and signature helpers -/

theorem minutesLeft_nonneg (e now : Int) : 0 ≤ minutesLeft e now :=
  le_max_left 0 _

theorem minutesLeft_antitone (e : Int) {t1 t2 : Int} (h : t1 ≤ t2) :
    minutesLeft e t2 ≤ minutesLeft e t1 := by
  unfold minutesLeft
  apply max_le_max le_rfl
  rw [Int.fdiv_eq_ediv _ (by norm_num), Int.fdiv_eq_ediv _ (by norm_num)]
  exact Int.ediv_le_ediv (by norm_num) (by omega)

/-- The table state after the decision logic: unchanged, except on the
first-activation path, where it is the row update keyed by the fetched
row's id. -/
theorem verify_snd (db : List LicenseRecord) (key : Option String)
    (now : Int) (code mid : String) :
    (verifyLicense db key now code mid).snd = db ∨
    ∃ c, db.find? (fun r => r.code = code) = some c ∧ c.is_used = false ∧
      (verifyLicense db key now code mid).snd =
        db.map (activateRow now mid (jsStartsWith c.code "TRIAL-") c.id) := by
  cases hf : db.find? (fun r => r.code = code) with
  | none =>
    left
    rw [verify_not_found db key now code mid hf]
  | some c =>
    by_cases hu : c.is_used = true
    · left
      by_cases hm : c.machine_id = some mid
      · by_cases ht : c.is_trial = true
        · by_cases he : now > c.trial_expires_at.getD 0
          · rw [verify_trial_expired db key now code mid c hf hu hm ht he]
          · rw [verify_trial_active db key now code mid c hf hu hm ht he]
        · rw [verify_lifetime db key now code mid c hf hu hm (by simpa using ht)]
      · rw [verify_used_other db key now code mid c hf hu hm]
    · right
      refine ⟨c, rfl, by simpa using hu, ?_⟩
      rw [verify_activation db key now code mid c hf (by simpa using hu)]

theorem handler_options (db : List LicenseRecord) (key : Option String)
    (now : Int) (body : ParsedBody) :
    handler db key now "OPTIONS" body = (⟨204, none⟩, db) := by
  unfold handler
  rw [if_pos rfl]

theorem handler_not_post (db : List LicenseRecord) (key : Option String)
    (now : Int) (method : String) (body : ParsedBody)
    (h1 : method ≠ "OPTIONS") (h2 : method ≠ "POST") :
    handler db key now method body =
      (⟨405, some ⟨false, "Method Not Allowed", none, none, none⟩⟩, db) := by
  unfold handler
  rw [if_neg h1, if_pos h2]

theorem handler_post_malformed (db : List LicenseRecord) (key : Option String)
    (now : Int) :
    handler db key now "POST" ParsedBody.malformed =
      (⟨500, some ⟨false, "Server error.", none, none, none⟩⟩, db) := by
  unfold handler
  rw [if_neg (by decide), if_neg (by simp)]

theorem handler_post_fields (db : List LicenseRecord) (key : Option String)
    (now : Int) (olc omid : Option String) :
    handler db key now "POST" (ParsedBody.ok olc omid) =
      if (falsy olc || falsy omid) = true then
        (⟨400, some ⟨false, "License code and machine ID required.", none, none, none⟩⟩, db)
      else verifyLicense db key now (jsTrim (olc.getD "")) (omid.getD "") := by
  unfold handler
  rw [if_neg (by decide), if_neg (by simp)]

/-- The handler either leaves the table alone or performs the single
first-activation update. -/
theorem handler_snd_cases (db : List LicenseRecord) (key : Option String)
    (now : Int) (method : String) (body : ParsedBody) :
    (handler db key now method body).snd = db ∨
    ∃ code mid c, db.find? (fun r => r.code = code) = some c ∧ c.is_used = false ∧
      (handler db key now method body).snd =
        db.map (activateRow now mid (jsStartsWith c.code "TRIAL-") c.id) := by
  by_cases h1 : method = "OPTIONS"
  · subst h1; rw [handler_options]; left; rfl
  · by_cases h2 : method = "POST"
    · subst h2
      cases body with
      | malformed => rw [handler_post_malformed]; left; rfl
      | ok olc omid =>
        rw [handler_post_fields]
        by_cases h3 : (falsy olc || falsy omid) = true
        · rw [if_pos h3]; left; rfl
        · rw [if_neg h3]
          rcases verify_snd db key now (jsTrim (olc.getD "")) (omid.getD "")
            with h | ⟨c, hf, hu, hs⟩
          · left; exact h
          · right; exact ⟨jsTrim (olc.getD ""), omid.getD "", c, hf, hu, hs⟩
    · rw [handler_not_post db key now method body h1 h2]; left; rfl

theorem signResponse_payload {key : Option String} {s : Bool} {m mid : String}
    {tr : Bool} {e : Option String} {t : SignedToken}
    (h : signResponse key s m mid tr e = some t) :
    t.payload = signPayload s m mid tr e := by
  cases key with
  | none => simp [signResponse] at h
  | some k =>
    simp only [signResponse, Option.some.injEq] at h
    rw [← h]

theorem signPayload_eq_canonical (s : Bool) (m mid : String) (tr : Bool)
    (e : Option String) : signPayload s m mid tr e = payloadCanonical s m mid tr e := rfl

/-- Every body produced by the decision logic carries a present, non-null
signature when the key is configured. -/
theorem verify_signed (db : List LicenseRecord) (k : String) (now : Int)
    (code mid : String) (b : RespBody)
    (hb : (verifyLicense db (some k) now code mid).fst.body = some b) :
    b.signature ≠ none ∧ b.signature ≠ some none := by
  cases hf : db.find? (fun r => r.code = code) with
  | none =>
    rw [verify_not_found db (some k) now code mid hf] at hb
    injection hb with hb
    rw [← hb]
    exact ⟨by simp [signResponse], by simp [signResponse]⟩
  | some c =>
    by_cases hu : c.is_used = true
    · by_cases hm : c.machine_id = some mid
      · by_cases ht : c.is_trial = true
        · by_cases he : now > c.trial_expires_at.getD 0
          · rw [verify_trial_expired db (some k) now code mid c hf hu hm ht he] at hb
            injection hb with hb
            rw [← hb]
            exact ⟨by simp [signResponse], by simp [signResponse]⟩
          · rw [verify_trial_active db (some k) now code mid c hf hu hm ht he] at hb
            injection hb with hb
            rw [← hb]
            exact ⟨by simp [signResponse], by simp [signResponse]⟩
        · rw [verify_lifetime db (some k) now code mid c hf hu hm (by simpa using ht)] at hb
          injection hb with hb
          rw [← hb]
          exact ⟨by simp [signResponse], by simp [signResponse]⟩
      · rw [verify_used_other db (some k) now code mid c hf hu hm] at hb
        injection hb with hb
        rw [← hb]
        exact ⟨by simp [signResponse], by simp [signResponse]⟩
    · rw [verify_activation db (some k) now code mid c hf (by simpa using hu)] at hb
      injection hb with hb
      rw [← hb]
      exact ⟨by simp [signResponse], by simp [signResponse]⟩

set_option maxHeartbeats 1000000 in
/-- Whatever body the decision logic produces, a present signature is the
signature of exactly the body's own field values (machineId being the
request's), with absent isTrial read as false and absent expiryDate as null. -/
theorem verify_payload (db : List LicenseRecord) (key : Option String)
    (now : Int) (code mid : String) (b : RespBody) (t : SignedToken)
    (hb : (verifyLicense db key now code mid).fst.body = some b)
    (ht : b.signature = some (some t)) :
    t.payload = signPayload b.success b.message mid
      (b.isTrial.getD false) ((b.expiryDate).getD none) := by
  cases hf : db.find? (fun r => r.code = code) with
  | none =>
    rw [verify_not_found db key now code mid hf] at hb
    injection hb with hb
    subst hb
    injection ht with ht
    simp only [Option.getD_some]
    exact signResponse_payload ht
  | some c =>
    by_cases hu : c.is_used = true
    · by_cases hm : c.machine_id = some mid
      · by_cases htr : c.is_trial = true
        · by_cases he : now > c.trial_expires_at.getD 0
          · rw [verify_trial_expired db key now code mid c hf hu hm htr he] at hb
            injection hb with hb
            subst hb
            injection ht with ht
            simp only [Option.getD_some]
            exact signResponse_payload ht
          · rw [verify_trial_active db key now code mid c hf hu hm htr he] at hb
            injection hb with hb
            subst hb
            injection ht with ht
            simp only [Option.getD_some]
            exact signResponse_payload ht
        · rw [verify_lifetime db key now code mid c hf hu hm (by simpa using htr)] at hb
          injection hb with hb
          subst hb
          injection ht with ht
          simp only [Option.getD_some]
          exact signResponse_payload ht
      · rw [verify_used_other db key now code mid c hf hu hm] at hb
        injection hb with hb
        subst hb
        injection ht with ht
        simp only [Option.getD_some]
        exact signResponse_payload ht
    · rw [verify_activation db key now code mid c hf (by simpa using hu)] at hb
      injection hb with hb
      subst hb
      injection ht with ht
      simp only [Option.getD_some]
      exact signResponse_payload ht

end Verify

namespace Verify

/-! ### Claims -/

/-- C1: for every POST request whose body parses and carries non-empty
licenseCode and machineId, the outcome follows the six-case decision table
in order: no matching record gives 404; a used record bound to another
machine gives 403; a used same-machine trial past expiry gives 402; a used
same-machine unexpired trial gives 200; a used same-machine non-trial gives
200; an unused record gives 200 with the row updated (marked used and bound
to machineId by activateRow). -/
theorem handler_decision_table (db : List LicenseRecord) (key : Option String)
    (now : Int) (lc mid : String) (hlc : lc ≠ "") (hmid : mid ≠ "") :
    (db.find? (fun r => r.code = jsTrim lc) = none →
      (postOutcome db key now lc mid).fst.statusCode = 404) ∧
    (∀ c, db.find? (fun r => r.code = jsTrim lc) = some c → c.is_used = true →
      c.machine_id ≠ some mid →
      (postOutcome db key now lc mid).fst.statusCode = 403) ∧
    (∀ c, db.find? (fun r => r.code = jsTrim lc) = some c → c.is_used = true →
      c.machine_id = some mid → c.is_trial = true → now > c.trial_expires_at.getD 0 →
      (postOutcome db key now lc mid).fst.statusCode = 402) ∧
    (∀ c, db.find? (fun r => r.code = jsTrim lc) = some c → c.is_used = true →
      c.machine_id = some mid → c.is_trial = true → ¬ now > c.trial_expires_at.getD 0 →
      (postOutcome db key now lc mid).fst.statusCode = 200 ∧
      Option.map (fun b => b.success) (postOutcome db key now lc mid).fst.body = some true) ∧
    (∀ c, db.find? (fun r => r.code = jsTrim lc) = some c → c.is_used = true →
      c.machine_id = some mid → c.is_trial = false →
      (postOutcome db key now lc mid).fst.statusCode = 200 ∧
      Option.map (fun b => b.success) (postOutcome db key now lc mid).fst.body = some true) ∧
    (∀ c, db.find? (fun r => r.code = jsTrim lc) = some c → c.is_used = false →
      (postOutcome db key now lc mid).fst.statusCode = 200 ∧
      Option.map (fun b => b.success) (postOutcome db key now lc mid).fst.body = some true ∧
      (postOutcome db key now lc mid).snd =
        db.map (activateRow now mid (jsStartsWith c.code "TRIAL-") c.id)) := by
  have hp : postOutcome db key now lc mid = verifyLicense db key now (jsTrim lc) mid :=
    handler_post_ok db key now lc mid hlc hmid
  refine ⟨?_, ?_, ?_, ?_, ?_, ?_⟩
  · intro hf
    rw [hp, verify_not_found db key now (jsTrim lc) mid hf]
  · intro c hf hu hm
    rw [hp, verify_used_other db key now (jsTrim lc) mid c hf hu hm]
  · intro c hf hu hm ht he
    rw [hp, verify_trial_expired db key now (jsTrim lc) mid c hf hu hm ht he]
  · intro c hf hu hm ht he
    rw [hp, verify_trial_active db key now (jsTrim lc) mid c hf hu hm ht he]
    exact ⟨rfl, rfl⟩
  · intro c hf hu hm ht
    rw [hp, verify_lifetime db key now (jsTrim lc) mid c hf hu hm ht]
    exact ⟨rfl, rfl⟩
  · intro c hf hu
    rw [hp, verify_activation db key now (jsTrim lc) mid c hf hu]
    exact ⟨rfl, rfl, rfl⟩

/-- Witness for C1: the unknown code NOPE gets 404. -/
theorem handler_decision_table_witness :
    (postOutcome [] none 0 "NOPE" "M1").fst.statusCode = 404 :=
  (handler_decision_table [] none 0 "NOPE" "M1" (by decide) (by decide)).1 rfl

/-- C4 counterexample: a malformed body on POST yields 500, not 400 as the
claim states. -/
theorem malformed_body_counterexample :
    (handler [] none 0 "POST" ParsedBody.malformed).fst.statusCode = 500 ∧
    ¬ (handler [] none 0 "POST" ParsedBody.malformed).fst.statusCode = 400 := by
  rw [handler_post_malformed]
  exact ⟨rfl, by decide⟩

/-- C4 amended: for every request whose body is unparseable JSON, the
handler returns status 500 with the generic server-error body (the throwing
JSON.parse is caught by the catch-all), and the table is unchanged. -/
theorem malformed_body_yields_500 (db : List LicenseRecord) (key : Option String)
    (now : Int) :
    handler db key now "POST" ParsedBody.malformed =
      (⟨500, some ⟨false, "Server error.", none, none, none⟩⟩, db) :=
  handler_post_malformed db key now

/-- C7: a used record bound to a different machine identifier yields 403
with the fixed message, regardless of trial flag or expiry (neither is
hypothesised), and the table is unchanged. -/
theorem bound_to_other_device (db : List LicenseRecord) (key : Option String)
    (now : Int) (lc mid : String) (c : LicenseRecord)
    (hlc : lc ≠ "") (hmid : mid ≠ "")
    (hfind : db.find? (fun r => r.code = jsTrim lc) = some c)
    (hused : c.is_used = true) (hother : c.machine_id ≠ some mid) :
    (postOutcome db key now lc mid).fst.statusCode = 403 ∧
    (postOutcome db key now lc mid).fst.body =
      some ⟨false, "This license is already used on another device.", none, none,
        some (signResponse key false "This license is already used on another device."
          mid false none)⟩ ∧
    (postOutcome db key now lc mid).snd = db := by
  have hp : postOutcome db key now lc mid = verifyLicense db key now (jsTrim lc) mid :=
    handler_post_ok db key now lc mid hlc hmid
  rw [hp, verify_used_other db key now (jsTrim lc) mid c hfind hused hother]
  exact ⟨rfl, rfl, rfl⟩

/-- Witness for C7: a used trial record bound to M1, queried from M2, gets
403 even while its trial is unexpired. -/
theorem bound_to_other_device_witness :
    (postOutcome [⟨3, "TRIAL-A", true, some "M1", some 0, 0, true, some 600000⟩]
        none 5 "TRIAL-A" "M2").fst.statusCode = 403 :=
  (bound_to_other_device
    [⟨3, "TRIAL-A", true, some "M1", some 0, 0, true, some 600000⟩]
    none 5 "TRIAL-A" "M2" ⟨3, "TRIAL-A", true, some "M1", some 0, 0, true, some 600000⟩
    (by decide) (by decide) rfl rfl (by decide)).1

/-- C8: re-verifying a used non-trial record from its bound machine yields
200 with the Verified message, and the table is returned unchanged. -/
theorem reverify_same_machine (db : List LicenseRecord) (key : Option String)
    (now : Int) (lc mid : String) (c : LicenseRecord)
    (hlc : lc ≠ "") (hmid : mid ≠ "")
    (hfind : db.find? (fun r => r.code = jsTrim lc) = some c)
    (hused : c.is_used = true) (hsame : c.machine_id = some mid)
    (hnt : c.is_trial = false) :
    (postOutcome db key now lc mid).fst.statusCode = 200 ∧
    (postOutcome db key now lc mid).fst.body =
      some ⟨true, "License verified successfully.", some false, some none,
        some (signResponse key true "License verified successfully." mid false none)⟩ ∧
    (postOutcome db key now lc mid).snd = db := by
  have hp : postOutcome db key now lc mid = verifyLicense db key now (jsTrim lc) mid :=
    handler_post_ok db key now lc mid hlc hmid
  rw [hp, verify_lifetime db key now (jsTrim lc) mid c hfind hused hsame hnt]
  exact ⟨rfl, rfl, rfl⟩

/-- Witness for C8: a used lifetime record re-verified from its own machine
gets 200 and the table comes back unchanged. -/
theorem reverify_same_machine_witness :
    (postOutcome [⟨1, "ABC", true, some "M1", some 0, 0, false, none⟩]
        none 5 "ABC" "M1").snd =
      [⟨1, "ABC", true, some "M1", some 0, 0, false, none⟩] :=
  (reverify_same_machine [⟨1, "ABC", true, some "M1", some 0, 0, false, none⟩]
    none 5 "ABC" "M1" ⟨1, "ABC", true, some "M1", some 0, 0, false, none⟩
    (by decide) (by decide) rfl rfl rfl rfl).2.2

end Verify

namespace Verify

/-- C2: with unique row ids (the SERIAL primary key), no execution of the
handler mutates a record whose is_used flag is already true: the record is
returned at its position unchanged, whatever the method, body, key or
clock — so a used row's machine_id binding never changes. -/
theorem used_records_immutable (db : List LicenseRecord) (key : Option String)
    (now : Int) (method : String) (body : ParsedBody)
    (hids : (db.map (fun r => r.id)).Nodup)
    (i : Nat) (r : LicenseRecord) (hr : db[i]? = some r)
    (hused : r.is_used = true) :
    (handler db key now method body).snd[i]? = some r := by
  rcases handler_snd_cases db key now method body with h | ⟨code, mid, c, hf, hu, hs⟩
  · rw [h, hr]
  · rw [hs, List.getElem?_map, hr, Option.map_some']
    have hi : i < db.length := by
      rcases List.getElem?_eq_some.mp hr with ⟨h1, _⟩
      exact h1
    have hie : db[i] = r := by
      have := List.getElem?_eq_getElem hi
      rw [hr] at this
      exact (Option.some.inj this).symm
    have hcmem : c ∈ db := List.mem_of_find?_eq_some hf
    obtain ⟨j, hj, hje⟩ := List.getElem_of_mem hcmem
    congr 1
    unfold activateRow
    rw [if_neg]
    intro hid
    have hmapeq : (db.map (fun r => r.id))[i]? = (db.map (fun r => r.id))[j]? := by
      rw [List.getElem?_map, List.getElem?_map, hr,
        List.getElem?_eq_getElem hj, Option.map_some', Option.map_some', hje, hid]
    have hij : i = j := List.getElem?_inj (by simpa using hi) hids hmapeq
    have hrc : r = c := by
      subst hij
      rw [← hie]
      exact hje
    rw [hrc, hu] at hused
    cases hused

/-- Witness for C2: activating XYZ from M2 leaves the used row ABC, bound to
M1, exactly in place. -/
theorem used_records_immutable_witness :
    (handler [⟨1, "ABC", true, some "M1", some 0, 0, false, none⟩,
              ⟨2, "XYZ", false, none, none, 0, false, none⟩] none 0 "POST"
        (ParsedBody.ok (some "XYZ") (some "M2"))).snd[0]? =
      some ⟨1, "ABC", true, some "M1", some 0, 0, false, none⟩ :=
  used_records_immutable
    [⟨1, "ABC", true, some "M1", some 0, 0, false, none⟩,
     ⟨2, "XYZ", false, none, none, 0, false, none⟩] none 0 "POST"
    (ParsedBody.ok (some "XYZ") (some "M2")) (by decide) 0
    ⟨1, "ABC", true, some "M1", some 0, 0, false, none⟩ rfl rfl

/-- C3 counterexample: the claim that every outcome carries a signature
field whenever the key is configured is false — a non-POST request is
answered 405 with a body that has no signature field at all. -/
theorem every_outcome_signed_counterexample :
    ¬ (∀ (db : List LicenseRecord) (key : Option String) (now : Int)
        (method : String) (body : ParsedBody) (b : RespBody),
        key ≠ none →
        (handler db key now method body).fst.body = some b →
        b.signature ≠ none) := by
  intro h
  exact h [] (some "K") 0 "GET" ParsedBody.malformed
    ⟨false, "Method Not Allowed", none, none, none⟩ (by simp) rfl rfl

/-- C3 amended: the decision outcomes (404, 403, 402 and the 200s) carry a
present, non-null signature when the key is configured; the 405 method
rejection, the 400 missing-fields rejection, and the 500 malformed-body
response carry no signature field at all. -/
theorem signature_field_coverage (db : List LicenseRecord) (k : String)
    (now : Int) (lc mid method : String) (olc omid : Option String)
    (hlc : lc ≠ "") (hmid : mid ≠ "")
    (hm1 : method ≠ "OPTIONS") (hm2 : method ≠ "POST")
    (hfv : (falsy olc || falsy omid) = true) :
    (∀ b, (postOutcome db (some k) now lc mid).fst.body = some b →
      b.signature ≠ none ∧ b.signature ≠ some none) ∧
    Option.map (fun b => b.signature)
      (handler db (some k) now method (ParsedBody.ok olc omid)).fst.body = some none ∧
    Option.map (fun b => b.signature)
      (handler db (some k) now "POST" (ParsedBody.ok olc omid)).fst.body = some none ∧
    Option.map (fun b => b.signature)
      (handler db (some k) now "POST" ParsedBody.malformed).fst.body = some none := by
  refine ⟨?_, ?_, ?_, ?_⟩
  · intro b hb
    have hp : postOutcome db (some k) now lc mid =
        verifyLicense db (some k) now (jsTrim lc) mid :=
      handler_post_ok db (some k) now lc mid hlc hmid
    rw [hp] at hb
    exact verify_signed db k now (jsTrim lc) mid b hb
  · rw [handler_not_post db (some k) now method (ParsedBody.ok olc omid) hm1 hm2]
    rfl
  · rw [handler_post_fields, if_pos hfv]
    rfl
  · rw [handler_post_malformed]
    rfl

/-- Witness for C3 amended: a GET request with a configured key is answered
with a body whose signature field is absent. -/
theorem signature_field_coverage_witness :
    Option.map (fun b => b.signature)
      (handler [] (some "K") 0 "GET" (ParsedBody.ok none none)).fst.body = some none :=
  (signature_field_coverage [] "K" 0 "NOPE" "M1" "GET" none none
    (by decide) (by decide) (by decide) (by decide) rfl).2.1

/-- C5: whenever a response of the handler to a parsed POST body carries a
signature, the signed payload is exactly the canonical deterministic JSON
serialization of the five fields success, message, machineId, isTrial,
expiryDate in that fixed order, with the values of the response body (the
machineId being the request's, absent isTrial read as false, absent
expiryDate as null) — so a verifier holding the public key can reproduce
the signed bytes from the response. -/
theorem signed_payload_canonical (db : List LicenseRecord) (key : Option String)
    (now : Int) (method lc mid : String) (b : RespBody) (t : SignedToken)
    (hb : (handler db key now method (ParsedBody.ok (some lc) (some mid))).fst.body = some b)
    (ht : b.signature = some (some t)) :
    t.payload = payloadCanonical b.success b.message mid
      (b.isTrial.getD false) (b.expiryDate.getD none) := by
  rw [← signPayload_eq_canonical]
  by_cases h1 : method = "OPTIONS"
  · subst h1
    rw [handler_options] at hb
    cases hb
  · by_cases h2 : method = "POST"
    · subst h2
      rw [handler_post_fields] at hb
      by_cases h3 : (falsy (some lc) || falsy (some mid)) = true
      · rw [if_pos h3] at hb
        injection hb with hb
        subst hb
        cases ht
      · rw [if_neg h3] at hb
        exact verify_payload db key now (jsTrim ((some lc).getD ""))
          ((some mid).getD "") b t hb ht
    · rw [handler_not_post db key now method (ParsedBody.ok (some lc) (some mid)) h1 h2] at hb
      injection hb with hb
      subst hb
      cases ht

/-- Witness for C5: the 404 outcome for the unknown code NOPE signs exactly
the canonical serialization of its body fields. -/
theorem signed_payload_canonical_witness :
    SignedToken.payload
        ⟨"K", signPayload false "Invalid license code." "M1" false none⟩ =
      payloadCanonical false "Invalid license code." "M1" false none :=
  signed_payload_canonical [] (some "K") 0 "POST" "NOPE" "M1"
    ⟨false, "Invalid license code.", none, none,
      some (some ⟨"K", signPayload false "Invalid license code." "M1" false none⟩)⟩
    ⟨"K", signPayload false "Invalid license code." "M1" false none⟩ rfl rfl

end Verify

namespace Verify

/-- C6: first activation of an unused record whose stored code starts with
TRIAL- answers 200 with isTrial true and expiry exactly now plus the fixed
10-minute duration, and the updated row carries is_trial true and that same
expiry; an unused record without the prefix is activated with is_trial
false and a null expiry. -/
theorem first_activation_trial_fields (db : List LicenseRecord)
    (key : Option String) (now : Int) (lc mid : String) (c : LicenseRecord)
    (hlc : lc ≠ "") (hmid : mid ≠ "")
    (hfind : db.find? (fun r => r.code = jsTrim lc) = some c)
    (hunused : c.is_used = false) :
    (jsStartsWith c.code "TRIAL-" = true →
      (postOutcome db key now lc mid).fst.statusCode = 200 ∧
      (postOutcome db key now lc mid).fst.body =
        some ⟨true, "Trial activated for 10 minutes.", some true,
          some (some (isoString (now + trialDurationMs))),
          some (signResponse key true "Trial activated for 10 minutes." mid true
            (some (isoString (now + trialDurationMs))))⟩ ∧
      (postOutcome db key now lc mid).snd = db.map (activateRow now mid true c.id) ∧
      (∀ r ∈ (postOutcome db key now lc mid).snd, r.id = c.id →
        r.is_used = true ∧ r.machine_id = some mid ∧ r.is_trial = true ∧
        r.trial_expires_at = some (now + trialDurationMs))) ∧
    (jsStartsWith c.code "TRIAL-" = false →
      (postOutcome db key now lc mid).fst.statusCode = 200 ∧
      (postOutcome db key now lc mid).fst.body =
        some ⟨true, "Lifetime license activated successfully.", some false, some none,
          some (signResponse key true "Lifetime license activated successfully."
            mid false none)⟩ ∧
      (postOutcome db key now lc mid).snd = db.map (activateRow now mid false c.id) ∧
      (∀ r ∈ (postOutcome db key now lc mid).snd, r.id = c.id →
        r.is_used = true ∧ r.machine_id = some mid ∧ r.is_trial = false ∧
        r.trial_expires_at = none)) := by
  have hp : postOutcome db key now lc mid = verifyLicense db key now (jsTrim lc) mid :=
    handler_post_ok db key now lc mid hlc hmid
  have hv := verify_activation db key now (jsTrim lc) mid c hfind hunused
  constructor
  · intro htr
    refine ⟨?_, ?_, ?_, ?_⟩
    · rw [hp, hv]
    · rw [hp, hv]
      simp [htr]
    · rw [hp, hv, htr]
    · intro r hrmem hid
      rw [hp, hv] at hrmem
      obtain ⟨a, ha, rfl⟩ := List.mem_map.mp hrmem
      by_cases haid : a.id = c.id
      · simp [activateRow, haid, htr]
      · exfalso
        apply haid
        unfold activateRow at hid
        rw [if_neg haid] at hid
        exact hid
  · intro htr
    refine ⟨?_, ?_, ?_, ?_⟩
    · rw [hp, hv]
    · rw [hp, hv]
      simp [htr]
    · rw [hp, hv, htr]
    · intro r hrmem hid
      rw [hp, hv] at hrmem
      obtain ⟨a, ha, rfl⟩ := List.mem_map.mp hrmem
      by_cases haid : a.id = c.id
      · simp [activateRow, haid, htr]
      · exfalso
        apply haid
        unfold activateRow at hid
        rw [if_neg haid] at hid
        exact hid

/-- Witness for C6: activating the unused code TRIAL-XYZ from M1 at time 0
answers 200. -/
theorem first_activation_trial_fields_witness :
    (postOutcome [⟨4, "TRIAL-XYZ", false, none, none, 0, false, none⟩]
        none 0 "TRIAL-XYZ" "M1").fst.statusCode = 200 :=
  ((first_activation_trial_fields
    [⟨4, "TRIAL-XYZ", false, none, none, 0, false, none⟩] none 0 "TRIAL-XYZ" "M1"
    ⟨4, "TRIAL-XYZ", false, none, none, 0, false, none⟩
    (by decide) (by decide) rfl rfl).1 (by decide)).1

/-- C9: a used same-machine trial record verified before expiry answers 200
at both instants with the remaining-minutes message, and the reported
remaining time is antitone in the clock and never negative. -/
theorem trial_active_monotone (db : List LicenseRecord) (key : Option String)
    (lc mid : String) (c : LicenseRecord) (t1 t2 : Int)
    (hlc : lc ≠ "") (hmid : mid ≠ "")
    (hfind : db.find? (fun r => r.code = jsTrim lc) = some c)
    (hused : c.is_used = true) (hsame : c.machine_id = some mid)
    (htrial : c.is_trial = true) (h12 : t1 ≤ t2)
    (h1 : ¬ t1 > c.trial_expires_at.getD 0)
    (h2 : ¬ t2 > c.trial_expires_at.getD 0) :
    (postOutcome db key t1 lc mid).fst.statusCode = 200 ∧
    Option.map (fun b => b.message) (postOutcome db key t1 lc mid).fst.body =
      some ("Trial active. Expires in " ++
        toString (minutesLeft (c.trial_expires_at.getD 0) t1) ++ " minutes.") ∧
    (postOutcome db key t2 lc mid).fst.statusCode = 200 ∧
    Option.map (fun b => b.message) (postOutcome db key t2 lc mid).fst.body =
      some ("Trial active. Expires in " ++
        toString (minutesLeft (c.trial_expires_at.getD 0) t2) ++ " minutes.") ∧
    minutesLeft (c.trial_expires_at.getD 0) t2 ≤
      minutesLeft (c.trial_expires_at.getD 0) t1 ∧
    0 ≤ minutesLeft (c.trial_expires_at.getD 0) t2 ∧
    0 ≤ minutesLeft (c.trial_expires_at.getD 0) t1 := by
  have hp1 : postOutcome db key t1 lc mid = verifyLicense db key t1 (jsTrim lc) mid :=
    handler_post_ok db key t1 lc mid hlc hmid
  have hp2 : postOutcome db key t2 lc mid = verifyLicense db key t2 (jsTrim lc) mid :=
    handler_post_ok db key t2 lc mid hlc hmid
  refine ⟨?_, ?_, ?_, ?_, minutesLeft_antitone _ h12, minutesLeft_nonneg _ _,
    minutesLeft_nonneg _ _⟩
  · rw [hp1, verify_trial_active db key t1 (jsTrim lc) mid c hfind hused hsame htrial h1]
  · rw [hp1, verify_trial_active db key t1 (jsTrim lc) mid c hfind hused hsame htrial h1]
    rfl
  · rw [hp2, verify_trial_active db key t2 (jsTrim lc) mid c hfind hused hsame htrial h2]
  · rw [hp2, verify_trial_active db key t2 (jsTrim lc) mid c hfind hused hsame htrial h2]
    rfl

/-- Witness for C9: for the trial record expiring at 600000 ms, the minutes
reported at 60000 ms are no more than those reported at 0 ms. -/
theorem trial_active_monotone_witness :
    minutesLeft 600000 60000 ≤ minutesLeft 600000 0 :=
  (trial_active_monotone [⟨3, "TRIAL-A", true, some "M1", some 0, 0, true, some 600000⟩]
    none "TRIAL-A" "M1" ⟨3, "TRIAL-A", true, some "M1", some 0, 0, true, some 600000⟩
    0 60000 (by decide) (by decide) rfl rfl rfl rfl (by decide) (by decide)
    (by decide)).2.2.2.2.1

/-- C10 counterexample: the outcome is not always identical to the outcome
on the trimmed licenseCode — a whitespace-only code passes the presence
check and is looked up as the empty string (404 on an empty table), while
its trimmed form is the empty string and is rejected 400. -/
theorem trim_outcome_counterexample :
    (handler [] none 0 "POST" (ParsedBody.ok (some " ") (some "M1"))).fst.statusCode
      = 404 ∧
    (handler [] none 0 "POST"
        (ParsedBody.ok (some (jsTrim " ")) (some "M1"))).fst.statusCode = 400 := by
  constructor
  · rfl
  · rfl

/-- C10 amended: whenever the trimmed licenseCode is non-empty, the
handler's outcome on the raw licenseCode is identical (response and
resulting table both) to the outcome on its trimmed form, for any machineId
field. -/
theorem trim_invariant_amended (db : List LicenseRecord) (key : Option String)
    (now : Int) (lc : String) (omid : Option String)
    (h : jsTrim lc ≠ "") :
    handler db key now "POST" (ParsedBody.ok (some lc) omid) =
      handler db key now "POST" (ParsedBody.ok (some (jsTrim lc)) omid) := by
  have hlc : lc ≠ "" := ne_empty_of_jsTrim_ne_empty h
  rw [handler_post_fields, handler_post_fields]
  have hflc : falsy (some lc) = false := by simp [falsy, hlc]
  have hftlc : falsy (some (jsTrim lc)) = false := by simp [falsy, h]
  rw [hflc, hftlc]
  cases homid : falsy omid with
  | true => rfl
  | false =>
    simp only [Bool.or_false, Bool.false_eq_true, if_false, Option.getD_some]
    rw [jsTrim_idem]

/-- Witness for C10 amended: a code with surrounding whitespace behaves
exactly like its trimmed form. -/
theorem trim_invariant_amended_witness :
    handler [] none 0 "POST" (ParsedBody.ok (some " A ") (some "M1")) =
      handler [] none 0 "POST" (ParsedBody.ok (some (jsTrim " A ")) (some "M1")) :=
  trim_invariant_amended [] none 0 " A " (some "M1") (by decide)

end Verify
